import Mathlib

/-!
Verification of the student-performance analytics core (src/app.py).

The Python source is shallowly embedded: the SQLite-backed record table
becomes an explicit `Store` value, pandas frames become `List Record`,
and SQL/pandas numeric values become `Rat` (the code never depends on
binary floating-point rounding in the properties treated here; where the
pandas semantics of division by zero matters, an explicit extended value
type `PVal` with infinities and NaN is used).  All definitions follow the
source line by line; the line numbers cited in doc comments refer to
src/app.py.
-/

namespace StudentPerf

/-- One performance record: the twelve payload columns of table
`student_data` (src/app.py:75-92), excluding the surrogate `id` and the
`created_at` timestamp, which the store assigns at insert time. -/
structure Record where
  name : String
  course : String
  month : String
  date : String
  subject : String
  topic : String
  rank : Int
  percentage : Rat
  marks : Rat
  average_marks : Rat
  highest_mark : Rat
  exam_type : String
deriving DecidableEq, Repr

/-- A row as stored: surrogate id and creation timestamp plus the payload. -/
structure StoredRow where
  id : Nat
  payload : Record
  created_at : Nat
deriving DecidableEq, Repr

/-- The persistent table plus the id sequence and a logical clock for the
monotone `created_at` values.  Rows are kept in insertion order, so
`created_at` is nondecreasing along `rows`. -/
structure Store where
  rows : List StoredRow
  nextId : Nat
  clock : Nat
deriving DecidableEq, Repr

def emptyStore : Store := { rows := [], nextId := 1, clock := 0 }

/-- The payload records of a store, in insertion order. -/
def storeRecs (st : Store) : List Record := st.rows.map (fun s => s.payload)

/-- The dedup key (src/app.py:111-115): the full tuple of the twelve
payload columns, `id` and `created_at` excluded. -/
def dedupKey (r : Record) :
    String × String × String × String × String × String × Int × Rat × Rat × Rat × Rat × String :=
  (r.name, r.course, r.month, r.date, r.subject, r.topic, r.rank, r.percentage,
   r.marks, r.average_marks, r.highest_mark, r.exam_type)

/-- The duplicate check of `insert_data_to_db` (src/app.py:111-125): the
`SELECT COUNT(*)` with equality on all twelve payload columns returns a
positive count iff some stored row agrees with `r` on the whole dedup
key, i.e. has payload equal to `r`. -/
def hasDup (st : Store) (r : Record) : Bool :=
  st.rows.any (fun s => decide (s.payload = r))

/-- Appending one row (the parameterized INSERT, src/app.py:129-140):
the store assigns the next surrogate id and the current timestamp. -/
def pushRecord (st : Store) (r : Record) : Store :=
  { rows := st.rows ++ [{ id := st.nextId, payload := r, created_at := st.clock }],
    nextId := st.nextId + 1,
    clock := st.clock + 1 }

def pushAll (st : Store) (rs : List Record) : Store := rs.foldl pushRecord st

inductive InsertResult
  | ok
  | duplicate
deriving DecidableEq, Repr

/-- `insert_data_to_db` (src/app.py:105-145): rows are processed one at a
time in input order; on the first dedup-key collision the function returns
the duplicate failure immediately, leaving the rows written earlier in the
same call in place.  (The Python code returns before reaching
`conn.commit()`, but the prefix rows sit in the open transaction of the
single cached connection: every later read on that connection sees them,
no rollback is ever issued, and any later commit persists them; the model
therefore keeps the prefix in the store state.)  The duplicate check for
each row runs against the table including the rows inserted earlier in the
same call, since the same cursor sees its own uncommitted writes. -/
def insert_data_to_db (st : Store) : List Record → Store × InsertResult
  | [] => (st, InsertResult.ok)
  | r :: rs =>
    if hasDup st r then (st, InsertResult.duplicate)
    else insert_data_to_db (pushRecord st r) rs

/-- A concrete record used by the witnesses. -/
def recA : Record :=
  { name := "A", course := "JEE", month := "August", date := "03/08/2025",
    subject := "Math", topic := "", rank := 1, percentage := 50, marks := 10,
    average_marks := 20, highest_mark := 40, exam_type := "DCT" }

def recB : Record := { recA with name := "B" }

/-! ## Aggregation: rank averaging (C3) -/

/-- The per-student overview's average rank (src/app.py:831):
`df[df['Rank'] > 0]['Rank'].mean()` — the mean of rank over the subset
with rank strictly positive; `none` models the pandas NaN shown as
"N/A" when that subset is empty. -/
def overviewAvgRank (df : List Record) : Option Rat :=
  let pos := (df.filter (fun r => decide (0 < r.rank))).map (fun r => r.rank)
  if pos.isEmpty then none
  else some ((pos.map (fun i => (i : Rat))).sum / pos.length)

/-- The records of one course group, `df[df['Course'] == course]`
(src/app.py:593,662,736). -/
def courseGroup (df : List Record) (course : String) : List Record :=
  df.filter (fun r => decide (r.course = course))

/-- The `Avg_Rank` statistic of `create_course_comparison_chart`
(src/app.py:662-674): `df.groupby('Course').agg({... 'Rank': 'mean' ...})`
— the plain arithmetic mean of `Rank` over ALL records of the course
group, with no `Rank > 0` filter; `none` models the empty group (which
`groupby` never produces). -/
def courseAvgRank (df : List Record) (course : String) : Option Rat :=
  let g := courseGroup df course
  if g.isEmpty then none
  else some (((g.map (fun r => r.rank)).map (fun i => (i : Rat))).sum / g.length)

/-- Three records of one course with ranks 0, 10, 20. -/
def rankRecs : List Record :=
  [{ recA with rank := 0 }, { recB with rank := 10 },
   { recA with name := "C", rank := 20 }]

/-! ## Bulk ingestion: percentage derivation (C4) -/

/-- A pandas/numpy float value as far as the embedded code observes it:
a finite rational, one of the two infinities, or NaN. -/
inductive PVal
  | fin (q : Rat)
  | posInf
  | negInf
  | nan
deriving DecidableEq, Repr

/-- One row of `(df['Marks'] / df['Highest_Mark']) * 100`
(src/app.py:548).  The division is unguarded in the source; numpy float
division by zero yields +inf for a positive numerator, -inf for a
negative one and NaN for 0/0, and a nonzero denominator yields the exact
finite quotient. -/
def derivePercentage (marks highest : Rat) : PVal :=
  if highest = 0 then
    if marks = 0 then PVal.nan
    else if 0 < marks then PVal.posInf
    else PVal.negInf
  else PVal.fin (marks / highest * 100)

/-- The Percentage column after src/app.py:547-548: if the column is
absent (`none`) or entirely non-numeric (all cells `none`), it is replaced
by the row-wise derivation from Marks and Highest_Mark; otherwise the
column is kept as-is (a non-numeric cell stays NaN at this point). -/
def percentageCol (pct : Option (List (Option Rat))) (marks highest : List Rat) :
    List PVal :=
  match pct with
  | none => List.zipWith derivePercentage marks highest
  | some col =>
    if col.all (fun c => c.isNone) then List.zipWith derivePercentage marks highest
    else col.map (fun c => match c with | some q => PVal.fin q | none => PVal.nan)

/-! ## Pass rate (C7) -/

/-- The pass-rate metric of `create_course_performance_overview`
(src/app.py:646-648): threshold 60 for JEE, 50 otherwise (the only other
course is NEET); `passed` counts the records of the course group with
percentage `>=` the threshold, and the rate is `passed / size * 100`,
defined as 0 for an empty group. -/
def coursePassRate (df : List Record) (course : String) : Rat :=
  let g := courseGroup df course
  let thr : Rat := if course = "JEE" then 60 else 50
  let passed := (g.filter (fun r => decide (thr ≤ r.percentage))).length
  if 0 < g.length then ((passed : Rat) / g.length) * 100 else 0

/-- Records for the C7 witness: one JEE record at exactly 60 and one at
59.9. -/
def passRecs : List Record :=
  [{ recA with percentage := 60 }, { recB with percentage := 59.9 }]

/-! ## Date parsing, date-ordered records and the trend insight (C5, C6) -/

/-- Calendar month lengths, as validated by `strptime` for the
`%d/%m/%Y` format used at src/app.py:781. -/
def daysInMonth (m y : Nat) : Nat :=
  if m = 2 then
    if (y % 4 = 0 ∧ y % 100 ≠ 0) ∨ y % 400 = 0 then 29 else 28
  else if m = 4 ∨ m = 6 ∨ m = 9 ∨ m = 11 then 30 else 31

/-- Split a character list at every occurrence of `sep` (the separator
itself dropped), like `str.split`: `n` separators yield `n+1` groups. -/
def splitChar (sep : Char) : List Char → List (List Char)
  | [] => [[]]
  | c :: cs =>
    match splitChar sep cs with
    | [] => if c = sep then [[], []] else [[c]]
    | g :: gs => if c = sep then [] :: g :: gs else (c :: g) :: gs

/-- A nonempty all-digit character group read as a number. -/
def digitsToNat (cs : List Char) : Option Nat :=
  if cs.isEmpty then none
  else
    cs.foldl
      (fun acc c =>
        match acc with
        | some n => if c.isDigit then some (n * 10 + (c.toNat - 48)) else none
        | none => none)
      (some 0)

/-- `pd.to_datetime(date, format='%d/%m/%Y', errors='coerce')`
(src/app.py:781), reduced to an order-preserving key: a date string
parses iff it is `D/M/Y` with numeric components forming a real calendar
date, and the key `y*512 + m*32 + d` orders parsed dates chronologically;
`none` models NaT. -/
def dateKey (s : String) : Option Nat :=
  match splitChar '/' s.data with
  | [d, m, y] =>
    match digitsToNat d, digitsToNat m, digitsToNat y with
    | some dn, some mn, some yn =>
      if 1 ≤ mn ∧ mn ≤ 12 ∧ 1 ≤ dn ∧ dn ≤ daysInMonth mn yn then
        some (yn * 512 + mn * 32 + dn)
      else none
    | _, _, _ => none
  | _ => none

/-- The order used by `sort_values('Date_parsed')` (src/app.py:782):
dates ascending with NaT sorted last (pandas `na_position='last'`). -/
def keyLe : Option Nat → Option Nat → Bool
  | _, none => true
  | none, some _ => false
  | some a, some b => decide (a ≤ b)

/-- Insert one record into a date-ordered list, before the first record
with a strictly later key (so the insertion is stable). -/
def insertByDate (r : Record) : List Record → List Record
  | [] => [r]
  | x :: xs =>
    if keyLe (dateKey r.date) (dateKey x.date) then r :: x :: xs
    else x :: insertByDate r xs

/-- `course_df.sort_values('Date_parsed')` (src/app.py:782): the records
reordered by parsed date ascending, unparsable dates (NaT) last, no
record dropped.  (The model fixes a deterministic stable order; pandas'
default quicksort fixes some order too, and none of the verified
properties depends on the order among records with equal keys.) -/
def sortByDate : List Record → List Record
  | [] => []
  | r :: rs => insertByDate r (sortByDate rs)

/-- `['Percentage'].mean()` over a record list (src/app.py:785-786);
only ever applied to nonempty window lists below. -/
def meanPct (rs : List Record) : Rat :=
  (rs.map (fun r => r.percentage)).sum / rs.length

inductive Trend
  | improving
  | declining
  | stab
deriving DecidableEq, Repr

/-- The trend tier cascade of src/app.py:789-794: difference strictly
above +5 improves, strictly below -5 declines, otherwise stable. -/
def classifyTrend (t : Rat) : Trend :=
  if 5 < t then Trend.improving
  else if t < -5 then Trend.declining
  else Trend.stab

/-- The recent-trend block of `show_course_insights` (src/app.py:778-796)
on an already course-filtered record list: sort by parsed date (NaT
last), and when at least 3 records exist append exactly one trend
insight comparing the mean percentage of the last three records
(`tail(3)`) against the first three (`head(3)`); with fewer than 3
records no trend insight is produced.  `some t` models the single
appended insight string of tier `t`; `none` models its absence. -/
def trendInsight (course_df : List Record) : Option Trend :=
  let sorted := sortByDate course_df
  if 3 ≤ sorted.length then
    some (classifyTrend
      (meanPct (sorted.drop (sorted.length - 3)) - meanPct (sorted.take 3)))
  else none

/-- The list-wise ordering preserved by the sort. -/
def dateOrdered (a b : Record) : Prop :=
  keyLe (dateKey a.date) (dateKey b.date) = true

/-- The C5 property of the trend block, for a given course-filtered
record list: with fewer than 3 records no trend insight appears; with at
least 3 the block produces exactly one trend insight, the date-ordered
sequence is a permutation of the records sorted nondecreasingly by date
key, and the tier is determined by the difference between the mean
percentage of the latest three and the earliest three records of that
sequence, with strict thresholds +5 and -5. -/
def trendSpec (rs : List Record) : Prop :=
  (rs.length < 3 → trendInsight rs = none) ∧
  (3 ≤ rs.length →
    List.Perm (sortByDate rs) rs ∧
    List.Pairwise dateOrdered (sortByDate rs) ∧
    (let diff := meanPct ((sortByDate rs).drop (rs.length - 3))
                  - meanPct ((sortByDate rs).take 3)
     trendInsight rs = some (classifyTrend diff) ∧
     (5 < diff → classifyTrend diff = Trend.improving) ∧
     (diff < -5 → classifyTrend diff = Trend.declining) ∧
     (-5 ≤ diff → diff ≤ 5 → classifyTrend diff = Trend.stab)))

/-- Six dated records: the earliest three average 40% and the latest
three average 50%. -/
def sixRecs : List Record :=
  [{ recA with date := "01/01/2025", percentage := 40 },
   { recA with date := "02/01/2025", percentage := 35 },
   { recA with date := "03/01/2025", percentage := 45 },
   { recA with date := "04/01/2025", percentage := 55 },
   { recA with date := "05/01/2025", percentage := 45 },
   { recA with date := "06/01/2025", percentage := 50 }]

/-- A record whose date string does not parse as `%d/%m/%Y`. -/
def badDateRec : Record := { recA with date := "??", percentage := 100 }

/-- Two parsable-dated records plus one unparsable-dated record. -/
def mixRecs : List Record :=
  [{ recA with date := "01/01/2025", percentage := 0 },
   { recA with date := "02/01/2025", percentage := 0, subject := "Physics" },
   badDateRec]

/-! ## Bulk upload: encoding/delimiter detection loop (C8) -/

/-- A parsed table as far as the detection loop observes it: the list of
header fields and the number of data rows. -/
abbrev Table := List (List Char) × Nat

/-- One `pd.read_csv(uploaded_file, encoding=encoding, sep=separator)`
attempt (src/app.py:475) on decoded text: the first nonblank line is the
header, split at the separator, and the remaining nonblank lines are the
data rows; a text with no nonblank line raises (pandas `EmptyDataError`),
modelled as `none`. -/
def parseTable (sep : Char) (content : List Char) : Option Table :=
  match (splitChar '\n' content).filter (fun l => decide (l ≠ [])) with
  | [] => none
  | h :: rest => some (splitChar sep h, rest.length)

/-- The separator priority list `[',', ';', '\t']` (src/app.py:468). -/
def sepOf : Nat → Char
  | 0 => ','
  | 1 => ';'
  | _ => '\t'

/-- The read oracle for an ASCII blob: all four encodings of
src/app.py:467 decode an ASCII byte blob to the same text, so the attempt
result depends only on the separator. -/
def readAscii (content : String) : Nat → Nat → Option Table :=
  fun _ s => parseTable (sepOf s) content.data

/-- The inner-loop acceptance test (src/app.py:478):
`len(df.columns) > 1 and len(df) > 0`. -/
def goodTable (t : Table) : Bool :=
  decide (1 < t.1.length) && decide (0 < t.2)

/-- The outer-loop acceptance test (src/app.py:483,486):
`len(df.columns) > 1` only — no row-count requirement. -/
def wideTable (t : Table) : Bool :=
  decide (1 < t.1.length)

/-- The inner separator loop (src/app.py:472-482): try each separator in
order; a failed read leaves `df` unchanged, a successful read overwrites
`df`, and a read passing the inner test breaks out with flag `true`. -/
def trySeps (read : Nat → Nat → Option Table) (e : Nat) :
    List Nat → Option Table → Option Table × Bool
  | [], df => (df, false)
  | s :: rest, df =>
    match read e s with
    | none => trySeps read e rest df
    | some t => if goodTable t then (some t, true) else trySeps read e rest (some t)

/-- The outer-loop break condition at src/app.py:483:
`df is not None and len(df.columns) > 1`. -/
def wideOpt : Option Table → Bool
  | some t => wideTable t
  | none => false

/-- The outer encoding loop (src/app.py:471-484): run the separator loop
for each encoding; stop when the inner loop broke, or when the carried
`df` — possibly a table with more than one column but zero rows — passes
the outer test `df is not None and len(df.columns) > 1`. -/
def tryEncs (read : Nat → Nat → Option Table) :
    List Nat → Option Table → Option Table
  | [], df => df
  | e :: rest, df =>
    match trySeps read e [0, 1, 2] df with
    | (df2, true) => df2
    | (df2, false) => if wideOpt df2 then df2 else tryEncs read rest df2

/-- The whole detection phase including the final check at
src/app.py:486: `df is None or len(df.columns) <= 1` fails. -/
def detect (read : Nat → Nat → Option Table) : Option Table :=
  if wideOpt (tryEncs read [0, 1, 2, 3] none) then tryEncs read [0, 1, 2, 3] none
  else none

inductive ParseOutcome
  | unparsable
  | accepted (cols : List (List Char)) (nrows : Nat)
deriving DecidableEq, Repr

/-- The parse phase of `bulk_upload_csv` (src/app.py:454-494) on an ASCII
blob: the empty-file check at src/app.py:459 and the could-not-parse
failure at src/app.py:486-494 are both the spec's `UnparsableInput`;
otherwise the detected table is handed to the later pipeline stages. -/
def parsePhase (blob : String) : ParseOutcome :=
  if blob = "" then ParseOutcome.unparsable
  else
    match detect (readAscii blob) with
    | some t => ParseOutcome.accepted t.1 t.2
    | none => ParseOutcome.unparsable

/-- `bulk_upload_csv` down to the store: on a parse failure the function
returns `False` before touching the store; on acceptance the rows that
survive the (here abstract) validation stages `toRecords` are handed to
`insert_data_to_db`.  Returns the store and the success flag. -/
def bulk_upload_csv (blob : String) (st : Store)
    (toRecords : List (List Char) → Nat → List Record) : Store × Bool :=
  match parsePhase blob with
  | ParseOutcome.unparsable => (st, false)
  | ParseOutcome.accepted h n =>
    match insert_data_to_db st (toRecords h n) with
    | (st2, InsertResult.ok) => (st2, true)
    | (st2, InsertResult.duplicate) => (st2, false)

/-- A `df` state of the loops that cannot trigger the outer acceptance:
absent, or a table with at most one column. -/
def narrowOpt (df : Option Table) : Prop :=
  wideOpt df = false

/-- A header-only blob whose four required column names are separated by
tabs: no (encoding, separator) combination yields both more than one
column and at least one data row. -/
def hdrBlob : String := "Name\tSubject\tMarks\tHighest_Mark"

/-! ## Export / re-import round trip (C9) -/

/-- The exported record sequence: `load_data_from_db` orders by
`created_at DESC` (src/app.py:150), so the CSV written at src/app.py:1384
lists the stored payloads most-recent-first; the importer ignores the
exported `id` and `created_at` columns, which `insert_data_to_db` never
reads. -/
def exportRecs (st : Store) : List Record := (storeRecs st).reverse

/-- Re-reading an unmodified export through `bulk_upload_csv`
(src/app.py:451-576).  All twelve payload columns are present in the
export, numeric values round-trip exactly through `to_csv`/`read_csv`,
and an empty string is written as an empty cell which `read_csv` reads
back as NaN.  Hence: a text column that is entirely empty comes back
entirely NaN and triggers the whole-column defaulting of
src/app.py:543-571 (Course → 'JEE', Month → current month name, Date →
current date, Exam_Type → 'DCT'), while in a column with at least one
nonempty value the NaN cells are restored to the empty string by the
final `fillna('')` (src/app.py:574); Topic is only ever NaN-filled, and
Rank and Average_Marks re-coerce to their stored numeric values.
`nowMonth`/`nowDate` stand for `datetime.now()` formatted at
src/app.py:552,555. -/
def reimport (nowMonth nowDate : String) (recs : List Record) : List Record :=
  let monthAll := recs.all (fun r => decide (r.month = ""))
  let dateAll := recs.all (fun r => decide (r.date = ""))
  let courseAll := recs.all (fun r => decide (r.course = ""))
  let examAll := recs.all (fun r => decide (r.exam_type = ""))
  recs.map (fun r =>
    { r with
      month := if monthAll then nowMonth else r.month,
      date := if dateAll then nowDate else r.date,
      course := if courseAll then "JEE" else r.course,
      exam_type := if examAll then "DCT" else r.exam_type })

/-- A stored record whose Month field is the empty string. -/
def emptyMonthRec : Record := { recA with month := "" }

/-- A store holding only `emptyMonthRec`. -/
def emptyMonthStore : Store := pushRecord emptyStore emptyMonthRec

/-! ## Manual entry form (C10) -/

inductive FormOutcome
  | submitted (r : Record)
  | missingFields
deriving DecidableEq

/-- The submission check of `show_data_entry_form` (src/app.py:418-449):
`if name and course and subject and marks and highest_mark:` — Python
truthiness, so an empty string or a numeric zero fails the check and the
form shows the missing-required-fields error instead of calling
`insert_data_to_db`; otherwise the record built at src/app.py:423-436 is
submitted for insertion. -/
def show_data_entry_form (name course month date subject topic : String)
    (rank : Int) (percentage marks average_marks highest_mark : Rat)
    (exam_type : String) : FormOutcome :=
  if name ≠ "" ∧ course ≠ "" ∧ subject ≠ "" ∧ marks ≠ 0 ∧ highest_mark ≠ 0 then
    FormOutcome.submitted
      { name := name, course := course, month := month, date := date,
        subject := subject, topic := topic, rank := rank,
        percentage := percentage, marks := marks,
        average_marks := average_marks, highest_mark := highest_mark,
        exam_type := exam_type }
  else FormOutcome.missingFields

/-! ## Theorems -/

theorem dedupKey_inj {a b : Record} (h : dedupKey a = dedupKey b) : a = b := by
  cases a
  cases b
  simp only [dedupKey, Prod.mk.injEq] at h
  simp only [Record.mk.injEq]
  exact h

theorem hasDup_true_of_mem {st : Store} {r : Record} {s : StoredRow}
    (hs : s ∈ st.rows) (h : s.payload = r) : hasDup st r = true := by
  simp only [hasDup, List.any_eq_true]
  exact ⟨s, hs, by simp [h]⟩

theorem pushAll_cons (st : Store) (r : Record) (rs : List Record) :
    pushAll st (r :: rs) = pushAll (pushRecord st r) rs := rfl

theorem pushAll_nil (st : Store) : pushAll st [] = st := rfl

/-- C1: a batch insert aborts at the first record whose dedup key already
exists (in the store or among the earlier records of the same batch),
reports the duplicate failure, and leaves exactly the records before it
persisted: no rollback of the prefix. -/
theorem C1_batch_abort (st : Store) (rs : List Record) (k : Nat) (hk : k < rs.length)
    (hdup : hasDup (pushAll st (rs.take k)) (rs.get ⟨k, hk⟩) = true)
    (hpre : ∀ j (hj : j < k),
      hasDup (pushAll st (rs.take j)) (rs.get ⟨j, Nat.lt_trans hj hk⟩) = false) :
    insert_data_to_db st rs = (pushAll st (rs.take k), InsertResult.duplicate) := by
  induction rs generalizing st k with
  | nil => exact absurd hk (Nat.not_lt_zero k)
  | cons r rest ih =>
    cases k with
    | zero =>
      simp only [List.take_zero, pushAll_nil, List.get] at hdup ⊢
      simp [insert_data_to_db, hdup]
    | succ k =>
      have h0 : hasDup st r = false := by
        have := hpre 0 (Nat.succ_pos k)
        simpa [pushAll_nil] using this
      have hk2 : k < rest.length := Nat.lt_of_succ_lt_succ hk
      have hdup2 : hasDup (pushAll (pushRecord st r) (rest.take k))
          (rest.get ⟨k, hk2⟩) = true := by
        simpa [List.take_succ_cons, pushAll_cons, List.get] using hdup
      have hpre2 : ∀ j (hj : j < k),
          hasDup (pushAll (pushRecord st r) (rest.take j))
            (rest.get ⟨j, Nat.lt_trans hj hk2⟩) = false := by
        intro j hj
        have := hpre (j + 1) (Nat.succ_lt_succ hj)
        simpa [List.take_succ_cons, pushAll_cons, List.get] using this
      have := ih (pushRecord st r) k hk2 hdup2 hpre2
      simp [insert_data_to_db, h0, this, List.take_succ_cons, pushAll_cons]

/-- Witness for C1: inserting `[A, B, A]` into an empty store leaves
exactly `A` and `B` persisted once each and reports the duplicate at the
third element. -/
theorem C1_batch_abort_witness :
    insert_data_to_db emptyStore [recA, recB, recA]
      = (pushAll emptyStore [recA, recB], InsertResult.duplicate) ∧
    storeRecs (pushAll emptyStore [recA, recB]) = [recA, recB] :=
  ⟨C1_batch_abort emptyStore [recA, recB, recA] 2 (by decide) (by decide)
      (by decide),
   by decide⟩

/-- C2: a second insert of a record agreeing with a stored row on the
whole dedup key — the twelve payload fields, id and timestamp excluded —
is rejected as a duplicate and creates no new row: the store is returned
unchanged. -/
theorem C2_dedup_reject (st : Store) (r : Record) (s : StoredRow)
    (hs : s ∈ st.rows) (hkey : dedupKey s.payload = dedupKey r) :
    insert_data_to_db st [r] = (st, InsertResult.duplicate) := by
  have hd : hasDup st r = true := hasDup_true_of_mem hs (dedupKey_inj hkey)
  simp [insert_data_to_db, hd]

/-- Witness for C2: insert `A` into an empty store (succeeds), then insert
it again: the second attempt reports a duplicate and the store is
unchanged. -/
theorem C2_dedup_reject_witness :
    (insert_data_to_db emptyStore [recA]).2 = InsertResult.ok ∧
    insert_data_to_db (pushRecord emptyStore recA) [recA]
      = (pushRecord emptyStore recA, InsertResult.duplicate) :=
  ⟨by decide,
   C2_dedup_reject (pushRecord emptyStore recA) recA
     { id := 1, payload := recA, created_at := 0 } (by decide) rfl⟩

/-- C3 (code bug): over records with ranks {0, 10, 20} the per-student
overview's average rank excludes the rank-0 record and yields 15, but the
grouped course statistic `Avg_Rank` of `create_course_comparison_chart`
has no `Rank > 0` filter and yields 10, contradicting the claim (and the
code's own treatment of rank 0 as "not available" at src/app.py:411,831,876)
for the grouped statistic. -/
theorem C3_rank_mean_divergence :
    overviewAvgRank rankRecs = some 15 ∧
    courseAvgRank rankRecs "JEE" = some 10 ∧
    courseAvgRank rankRecs "JEE" ≠ overviewAvgRank rankRecs := by
  have h1 : overviewAvgRank rankRecs = some 15 := by
    simp +decide [overviewAvgRank, rankRecs, recA, recB]
    norm_num
  have h2 : courseAvgRank rankRecs "JEE" = some 10 := by
    simp +decide [courseAvgRank, courseGroup, rankRecs, recA, recB]
    norm_num
  refine ⟨h1, h2, ?_⟩
  rw [h1, h2]
  simp

/-- Counterexample to C4: with the Percentage column absent, a row with
marks 10 and highest mark 0 gets percentage +inf, not the claimed 0 — the
division at src/app.py:548 is not guarded. -/
theorem C4_guard_counterexample :
    percentageCol none [10] [0] = [PVal.posInf] ∧ PVal.posInf ≠ PVal.fin 0 := by
  decide

/-- C4 as amended: in the bulk-ingestion path the derived percentage is
`marks/highest_mark*100` whenever `highest_mark ≠ 0`; when
`highest_mark = 0` the division is unguarded, so the result is never the
finite value 0: it is NaN for marks 0 and +inf for positive marks. -/
theorem C4_derivation_unguarded (m h : Rat) :
    (h ≠ 0 → derivePercentage m h = PVal.fin (m / h * 100)) ∧
    (h = 0 → (∀ q : Rat, derivePercentage m h ≠ PVal.fin q) ∧
      (m = 0 → derivePercentage m h = PVal.nan) ∧
      (0 < m → derivePercentage m h = PVal.posInf)) := by
  constructor
  · intro hne
    simp [derivePercentage, hne]
  · intro h0
    subst h0
    refine ⟨?_, ?_, ?_⟩
    · intro q
      by_cases hm : m = 0
      · simp [derivePercentage, hm]
      · by_cases hp : 0 < m <;> simp [derivePercentage, hm, hp]
    · intro hm
      simp [derivePercentage, hm]
    · intro hp
      have hm : m ≠ 0 := ne_of_gt hp
      simp [derivePercentage, hm, hp]

/-- Witness for C4 as amended, at highest mark 80 (nonzero) and at the
unguarded 10/0 row. -/
theorem C4_derivation_unguarded_witness :
    derivePercentage 50 80 = PVal.fin (50 / 80 * 100) ∧
    derivePercentage 10 0 ≠ PVal.fin 0 :=
  ⟨(C4_derivation_unguarded 50 80).1 (by norm_num),
   ((C4_derivation_unguarded 10 0).2 rfl).1 0⟩

/-- C7: the pass rate of a nonempty JEE group is the fraction of records
with percentage `>= 60` (as a percentage); a record at exactly 60 counts
as passed and one at 59.9 does not; for NEET the threshold is 50; and the
pass rate of an empty group is 0. -/
theorem C7_pass_rate (df : List Record) :
    (courseGroup df "JEE" ≠ [] →
      coursePassRate df "JEE" =
        (((courseGroup df "JEE").filter
            (fun r => decide ((60 : Rat) ≤ r.percentage))).length : Rat)
          / (courseGroup df "JEE").length * 100) ∧
    (courseGroup df "NEET" ≠ [] →
      coursePassRate df "NEET" =
        (((courseGroup df "NEET").filter
            (fun r => decide ((50 : Rat) ≤ r.percentage))).length : Rat)
          / (courseGroup df "NEET").length * 100) ∧
    (∀ course, courseGroup df course = [] → coursePassRate df course = 0) ∧
    (∀ r ∈ courseGroup df "JEE", r.percentage = 60 →
      r ∈ (courseGroup df "JEE").filter (fun r => decide ((60 : Rat) ≤ r.percentage))) ∧
    (∀ r ∈ courseGroup df "JEE", r.percentage = 59.9 →
      r ∉ (courseGroup df "JEE").filter (fun r => decide ((60 : Rat) ≤ r.percentage))) := by
  refine ⟨?_, ?_, ?_, ?_, ?_⟩
  · intro hne
    have hlen : 0 < (courseGroup df "JEE").length := List.length_pos.mpr hne
    simp [coursePassRate, hlen]
  · intro hne
    have hlen : 0 < (courseGroup df "NEET").length := List.length_pos.mpr hne
    simp [coursePassRate, hlen]
  · intro course hempty
    simp [coursePassRate, hempty]
  · intro r hr hp
    refine List.mem_filter.mpr ⟨hr, ?_⟩
    rw [hp]
    norm_num
  · intro r hr hp
    intro hmem
    have := (List.mem_filter.mp hmem).2
    rw [hp] at this
    norm_num at this

/-- Witness for C7: on the two-record JEE group {60, 59.9} the pass rate
is 1/2 * 100 = 50, the record at 60 is counted and the one at 59.9 is
not; the empty group has rate 0. -/
theorem C7_pass_rate_witness :
    coursePassRate passRecs "JEE" =
      (((courseGroup passRecs "JEE").filter
          (fun r => decide ((60 : Rat) ≤ r.percentage))).length : Rat)
        / (courseGroup passRecs "JEE").length * 100 ∧
    coursePassRate ([] : List Record) "X" = 0 ∧
    coursePassRate passRecs "JEE" = 50 := by
  refine ⟨(C7_pass_rate passRecs).1 (by decide),
          (C7_pass_rate ([] : List Record)).2.2.1 "X" rfl, ?_⟩
  simp +decide [coursePassRate, courseGroup, passRecs, recA, recB]
  norm_num

theorem classifyTrend_improving {t : Rat} (h : 5 < t) :
    classifyTrend t = Trend.improving := by
  simp [classifyTrend, h]

theorem classifyTrend_declining {t : Rat} (h : t < -5) :
    classifyTrend t = Trend.declining := by
  have hn : ¬ (5 : Rat) < t := by
    intro hc
    linarith
  simp [classifyTrend, hn, h]

theorem classifyTrend_stab {t : Rat} (h1 : -5 ≤ t) (h2 : t ≤ 5) :
    classifyTrend t = Trend.stab := by
  simp [classifyTrend, not_lt.mpr h2, not_lt.mpr h1]

theorem keyLe_total (a b : Option Nat) : keyLe a b = true ∨ keyLe b a = true := by
  cases a <;> cases b <;> simp [keyLe]
  omega

theorem keyLe_trans {a b c : Option Nat} (h1 : keyLe a b = true)
    (h2 : keyLe b c = true) : keyLe a c = true := by
  cases a <;> cases b <;> cases c <;> simp_all [keyLe]
  omega

theorem mem_insertByDate {r y : Record} {l : List Record}
    (h : y ∈ insertByDate r l) : y = r ∨ y ∈ l := by
  induction l with
  | nil => simpa [insertByDate] using h
  | cons x xs ih =>
    by_cases hc : keyLe (dateKey r.date) (dateKey x.date) = true
    · simp only [insertByDate, if_pos hc, List.mem_cons] at h
      rcases h with h | h | h
      · exact Or.inl h
      · exact Or.inr (by simp [h])
      · exact Or.inr (List.mem_cons_of_mem x h)
    · simp only [insertByDate, if_neg hc, List.mem_cons] at h
      rcases h with h | h
      · exact Or.inr (by simp [h])
      · rcases ih h with h | h
        · exact Or.inl h
        · exact Or.inr (List.mem_cons_of_mem x h)

theorem insertByDate_perm (r : Record) (l : List Record) :
    List.Perm (insertByDate r l) (r :: l) := by
  induction l with
  | nil => simp [insertByDate]
  | cons x xs ih =>
    by_cases hc : keyLe (dateKey r.date) (dateKey x.date) = true
    · simp [insertByDate, hc]
    · simp only [insertByDate, if_neg hc]
      exact (List.Perm.cons x ih).trans (List.Perm.swap r x xs)

theorem sortByDate_perm (rs : List Record) :
    List.Perm (sortByDate rs) rs := by
  induction rs with
  | nil => simp [sortByDate]
  | cons r rest ih =>
    exact ((insertByDate_perm r (sortByDate rest)).trans (List.Perm.cons r ih))

theorem sortByDate_length (rs : List Record) :
    (sortByDate rs).length = rs.length :=
  (sortByDate_perm rs).length_eq

theorem mem_sortByDate {y : Record} {rs : List Record} :
    y ∈ sortByDate rs ↔ y ∈ rs :=
  (sortByDate_perm rs).mem_iff

theorem pairwise_insertByDate {r : Record} {l : List Record}
    (h : List.Pairwise dateOrdered l) :
    List.Pairwise dateOrdered (insertByDate r l) := by
  induction l with
  | nil => simp [insertByDate]
  | cons x xs ih =>
    rcases List.pairwise_cons.mp h with ⟨hx, hxs⟩
    by_cases hc : keyLe (dateKey r.date) (dateKey x.date) = true
    · simp only [insertByDate, if_pos hc]
      refine List.pairwise_cons.mpr ⟨?_, h⟩
      intro y hy
      rcases List.mem_cons.mp hy with hy | hy
      · subst hy; exact hc
      · exact keyLe_trans hc (hx y hy)
    · simp only [insertByDate, if_neg hc]
      have hxr : dateOrdered x r := by
        rcases keyLe_total (dateKey r.date) (dateKey x.date) with ht | ht
        · exact absurd ht hc
        · exact ht
      refine List.pairwise_cons.mpr ⟨?_, ih hxs⟩
      intro y hy
      rcases mem_insertByDate hy with hy | hy
      · subst hy; exact hxr
      · exact hx y hy

theorem sortByDate_pairwise (rs : List Record) :
    List.Pairwise dateOrdered (sortByDate rs) := by
  induction rs with
  | nil => simp [sortByDate]
  | cons r rest ih => exact pairwise_insertByDate ih

/-- C5: on a track's record set in which every date parses, the insight
block sorts the records by parsed date ascending and emits exactly one
trend statement when at least 3 records exist — improving above +5,
declining below -5, stable otherwise — and omits the trend entirely with
fewer than 3 records. -/
theorem C5_trend (rs : List Record)
    (hp : ∀ r ∈ rs, (dateKey r.date).isSome = true) :
    trendSpec rs ∧
    List.Pairwise
      (fun a b => ∃ ka kb, dateKey a.date = some ka ∧ dateKey b.date = some kb ∧ ka ≤ kb)
      (sortByDate rs) := by
  constructor
  · constructor
    · intro hlt
      have hlen := sortByDate_length rs
      simp only [trendInsight]
      rw [if_neg (by omega)]
    · intro hge
      refine ⟨sortByDate_perm rs, sortByDate_pairwise rs, ?_, ?_, ?_, ?_⟩
      · have hlen := sortByDate_length rs
        simp only [trendInsight]
        rw [if_pos (by omega), hlen]
      · exact fun h5 => classifyTrend_improving h5
      · exact fun h5 => classifyTrend_declining h5
      · exact fun hlo hhi => classifyTrend_stab hlo hhi
  · have hmem : ∀ r ∈ sortByDate rs, (dateKey r.date).isSome = true := by
      intro r hr
      exact hp r (mem_sortByDate.mp hr)
    refine List.Pairwise.imp_of_mem ?_ (sortByDate_pairwise rs)
    intro a b ha hb hab
    rcases Option.isSome_iff_exists.mp (hmem a ha) with ⟨ka, hka⟩
    rcases Option.isSome_iff_exists.mp (hmem b hb) with ⟨kb, hkb⟩
    refine ⟨ka, kb, hka, hkb, ?_⟩
    have := hab
    rw [dateOrdered, hka, hkb] at this
    simpa [keyLe] using this

/-- Witness for C5: the six-record set (earliest-3 mean 40, latest-3 mean
50, difference +10) satisfies the trend property and produces the single
"improving" insight; a two-record set produces no trend insight. -/
theorem C5_trend_witness :
    (trendSpec sixRecs ∧
      List.Pairwise
        (fun a b => ∃ ka kb, dateKey a.date = some ka ∧ dateKey b.date = some kb ∧ ka ≤ kb)
        (sortByDate sixRecs)) ∧
    trendInsight sixRecs = some Trend.improving ∧
    trendInsight (sixRecs.take 2) = none := by
  refine ⟨C5_trend sixRecs (by decide), ?_, ?_⟩
  · have hs : sortByDate sixRecs = sixRecs := by decide
    simp only [trendInsight, hs]
    rw [if_pos (by decide)]
    have hcl : classifyTrend
        (meanPct (sixRecs.drop (sixRecs.length - 3)) - meanPct (sixRecs.take 3))
        = Trend.improving := by
      have hdiff : meanPct (sixRecs.drop (sixRecs.length - 3))
          - meanPct (sixRecs.take 3) = 10 := by
        simp [sixRecs, recA, meanPct]
        norm_num
      rw [hdiff]
      simp [classifyTrend]
      norm_num
    simp [hcl]
  · simp only [trendInsight]
    rw [if_neg (by decide)]

/-- Counterexample to C6: the unparsable-dated record is NOT excluded —
it stays in the date-ordered sequence (sorted last as NaT), raises the
record count to 3, and its percentage enters the `tail(3)` mean, so the
code emits a "stable" trend insight; had unparsable dates been excluded
as claimed, only 2 records would remain and no trend insight would be
produced. -/
theorem C6_unparsable_counterexample :
    badDateRec ∈ sortByDate mixRecs ∧
    dateKey badDateRec.date = none ∧
    trendInsight mixRecs = some Trend.stab ∧
    trendInsight (mixRecs.filter (fun r => (dateKey r.date).isSome)) = none := by
  refine ⟨by decide, by decide, ?_, ?_⟩
  · have hs : sortByDate mixRecs = mixRecs := by decide
    simp only [trendInsight, hs]
    rw [if_pos (by decide)]
    have hdiff : meanPct (mixRecs.drop (mixRecs.length - 3))
        - meanPct (mixRecs.take 3) = 0 := by
      simp [mixRecs, recA, badDateRec, meanPct]
    rw [hdiff]
    simp [classifyTrend]
    norm_num
  · have hf : mixRecs.filter (fun r => (dateKey r.date).isSome) = mixRecs.take 2 := by
      decide
    rw [hf]
    simp only [trendInsight]
    rw [if_neg (by decide)]

/-- C6 as amended: before the trend computation no record is excluded:
the date-ordered sequence is a permutation of the whole course record
set (so unparsable dates count toward the 3-record threshold), with the
unparsable dates coerced to NaT and ordered after every parsable date —
hence they can appear in the latest-3 window used for the trend. -/
theorem C6_nat_sorted_last (rs : List Record) :
    List.Perm (sortByDate rs) rs ∧
    (sortByDate rs).length = rs.length ∧
    List.Pairwise
      (fun a b => dateKey a.date = none → dateKey b.date = none)
      (sortByDate rs) := by
  refine ⟨sortByDate_perm rs, sortByDate_length rs, ?_⟩
  refine (sortByDate_pairwise rs).imp ?_
  intro a b hab hnone
  rw [dateOrdered, hnone] at hab
  cases hb : dateKey b.date with
  | none => rfl
  | some kb =>
    rw [hb] at hab
    simp [keyLe] at hab

theorem narrowOpt_none : narrowOpt none := rfl

theorem narrowOpt_some {t : Table} (h : wideTable t = false) :
    narrowOpt (some t) := h

theorem narrowOpt_wide {df : Option Table} {t : Table}
    (hn : narrowOpt df) (h : df = some t) : wideTable t = false := by
  rw [h] at hn
  exact hn

theorem wideTable_of_goodTable {t : Table} (h : goodTable t = true) :
    wideTable t = true := by
  simp only [goodTable, Bool.and_eq_true] at h
  exact h.1

theorem goodTable_eq_false_of_wide {t : Table} (h : wideTable t = false) :
    goodTable t = false := by
  simp only [wideTable] at h
  simp only [goodTable, h, Bool.false_and]

theorem trySeps_false_no_good {read : Nat → Nat → Option Table} {e : Nat}
    {ss : List Nat} {df df2 : Option Table}
    (h : trySeps read e ss df = (df2, false)) :
    ∀ s ∈ ss, ∀ t, read e s = some t → goodTable t = false := by
  induction ss generalizing df with
  | nil =>
    intro s hs
    simp at hs
  | cons s0 rest ih =>
    intro s hs t ht
    cases hr : read e s0 with
    | none =>
      have h2 : trySeps read e rest df = (df2, false) := by
        simpa [trySeps, hr] using h
      rcases List.mem_cons.mp hs with rfl | hs2
      · rw [hr] at ht
        cases ht
      · exact ih h2 s hs2 t ht
    | some t0 =>
      by_cases hg : goodTable t0 = true
      · exfalso
        have hpair : (some t0, true) = (df2, false) := by
          simpa [trySeps, hr, hg] using h
        exact Bool.noConfusion (congrArg Prod.snd hpair)
      · have h2 : trySeps read e rest (some t0) = (df2, false) := by
          simpa [trySeps, hr, hg] using h
        rcases List.mem_cons.mp hs with rfl | hs2
        · rw [hr] at ht
          injection ht with ht
          subst ht
          exact Bool.not_eq_true _ ▸ eq_false_of_ne_true hg
        · exact ih h2 s hs2 t ht

theorem trySeps_true_good {read : Nat → Nat → Option Table} {e : Nat}
    {ss : List Nat} {df df2 : Option Table}
    (h : trySeps read e ss df = (df2, true)) :
    ∃ t, df2 = some t ∧ goodTable t = true := by
  induction ss generalizing df with
  | nil =>
    exfalso
    have hpair : (df, false) = (df2, true) := by simpa [trySeps] using h
    exact Bool.noConfusion (congrArg Prod.snd hpair)
  | cons s0 rest ih =>
    cases hr : read e s0 with
    | none => exact ih (by simpa [trySeps, hr] using h)
    | some t0 =>
      by_cases hg : goodTable t0 = true
      · have h2 : (some t0, true) = (df2, true) := by
          simpa [trySeps, hr, hg] using h
        exact ⟨t0, (congrArg Prod.fst h2).symm, hg⟩
      · exact ih (by simpa [trySeps, hr, hg] using h)

theorem trySeps_all_narrow {read : Nat → Nat → Option Table} {e : Nat}
    (ss : List Nat) (df0 : Option Table) (hdf : narrowOpt df0)
    (hnar : ∀ s ∈ ss, ∀ t, read e s = some t → wideTable t = false) :
    (trySeps read e ss df0).2 = false ∧ narrowOpt (trySeps read e ss df0).1 := by
  induction ss generalizing df0 with
  | nil => exact ⟨rfl, hdf⟩
  | cons s0 rest ih =>
    have htail : ∀ s ∈ rest, ∀ t, read e s = some t → wideTable t = false :=
      fun s hs => hnar s (List.mem_cons_of_mem s0 hs)
    cases hr : read e s0 with
    | none => simpa [trySeps, hr] using ih df0 hdf htail
    | some t0 =>
      have hw : wideTable t0 = false := hnar s0 (by simp) t0 hr
      have hg : goodTable t0 = false := goodTable_eq_false_of_wide hw
      simpa [trySeps, hr, hg] using ih (some t0) (narrowOpt_some hw) htail

theorem tryEncs_no_good {read : Nat → Nat → Option Table}
    {es : List Nat} {df dfR : Option Table}
    (h : tryEncs read es df = dfR) (hR : narrowOpt dfR) :
    ∀ e ∈ es, ∀ s ∈ [0, 1, 2], ∀ t, read e s = some t → goodTable t = false := by
  induction es generalizing df with
  | nil =>
    intro e he
    simp at he
  | cons e0 rest ih =>
    intro e he s hs t ht
    rcases hts : trySeps read e0 [0, 1, 2] df with ⟨df2, b⟩
    cases b with
    | true =>
      exfalso
      have hdfR : df2 = dfR := by simpa [tryEncs, hts] using h
      rcases trySeps_true_good hts with ⟨tg, htg, hgood⟩
      have hnar := narrowOpt_wide hR (hdfR ▸ htg)
      rw [wideTable_of_goodTable hgood] at hnar
      cases hnar
    | false =>
      have h2 : (if wideOpt df2 then df2 else tryEncs read rest df2) = dfR := by
        simpa [tryEncs, hts] using h
      by_cases hw : wideOpt df2 = true
      · exfalso
        rw [if_pos hw] at h2
        subst h2
        have hR2 : wideOpt df2 = false := hR
        rw [hR2] at hw
        cases hw
      · rw [if_neg hw] at h2
        rcases List.mem_cons.mp he with rfl | he2
        · exact trySeps_false_no_good hts s hs t ht
        · exact ih h2 e he2 s hs t ht

theorem detect_none_sound (read : Nat → Nat → Option Table) :
    detect read = none →
      ∀ e ∈ [0, 1, 2, 3], ∀ s ∈ [0, 1, 2], ∀ t, read e s = some t →
        goodTable t = false := by
  intro hnone
  by_cases hw : wideOpt (tryEncs read [0, 1, 2, 3] none) = true
  · exfalso
    rw [detect, if_pos hw] at hnone
    rw [hnone] at hw
    simp [wideOpt] at hw
  · have hn : narrowOpt (tryEncs read [0, 1, 2, 3] none) := by
      simpa [narrowOpt] using hw
    exact tryEncs_no_good rfl hn

theorem trySeps_first_good {read : Nat → Nat → Option Table} {e : Nat} {t : Table}
    (ss : List Nat) (hsorted : List.Pairwise (fun a b => a < b) ss)
    (s : Nat) (hs : s ∈ ss) (df0 : Option Table) (hdf : narrowOpt df0)
    (hr : read e s = some t) (hg : goodTable t = true)
    (hpre : ∀ s2 ∈ ss, s2 < s → ∀ t2, read e s2 = some t2 → wideTable t2 = false) :
    trySeps read e ss df0 = (some t, true) := by
  induction ss generalizing df0 with
  | nil => cases hs
  | cons s0 rest ih =>
    rcases List.mem_cons.mp hs with rfl | hs2
    · simp [trySeps, hr, hg]
    · have hs0lt : s0 < s := (List.pairwise_cons.mp hsorted).1 s hs2
      have hpre2 : ∀ s2 ∈ rest, s2 < s → ∀ t2, read e s2 = some t2 →
          wideTable t2 = false :=
        fun s2 h2 => hpre s2 (List.mem_cons_of_mem s0 h2)
      have hsorted2 := (List.pairwise_cons.mp hsorted).2
      cases hr0 : read e s0 with
      | none =>
        simpa [trySeps, hr0] using ih hsorted2 hs2 df0 hdf hpre2
      | some t0 =>
        have hw : wideTable t0 = false := hpre s0 (by simp) hs0lt t0 hr0
        have hg0 : goodTable t0 = false := goodTable_eq_false_of_wide hw
        simpa [trySeps, hr0, hg0] using ih hsorted2 hs2 (some t0) (narrowOpt_some hw) hpre2

theorem tryEncs_first_accept {read : Nat → Nat → Option Table} {t : Table}
    (es : List Nat) (hsorted : List.Pairwise (fun a b => a < b) es)
    (e : Nat) (he : e ∈ es) (df0 : Option Table) (hdf : narrowOpt df0)
    (s : Nat) (hs : s ∈ [0, 1, 2]) (hr : read e s = some t) (hg : goodTable t = true)
    (hpreS : ∀ s2 ∈ [0, 1, 2], s2 < s → ∀ t2, read e s2 = some t2 →
      wideTable t2 = false)
    (hpreE : ∀ e2 ∈ es, e2 < e → ∀ s2 ∈ [0, 1, 2], ∀ t2, read e2 s2 = some t2 →
      wideTable t2 = false) :
    tryEncs read es df0 = some t := by
  induction es generalizing df0 with
  | nil => cases he
  | cons e0 rest ih =>
    rcases List.mem_cons.mp he with rfl | he2
    · have hbrk := trySeps_first_good [0, 1, 2] (by decide) s hs df0 hdf hr hg hpreS
      simp [tryEncs, hbrk]
    · have he0lt : e0 < e := (List.pairwise_cons.mp hsorted).1 e he2
      have hnarrow0 : ∀ s2 ∈ [0, 1, 2], ∀ t2, read e0 s2 = some t2 →
          wideTable t2 = false :=
        hpreE e0 (by simp) he0lt
      rcases hts : trySeps read e0 [0, 1, 2] df0 with ⟨df2, b⟩
      have hb : b = false := by
        have hall := (trySeps_all_narrow [0, 1, 2] df0 hdf hnarrow0).1
        rw [hts] at hall
        exact hall
      subst hb
      have hn : narrowOpt df2 := by
        have hall := (trySeps_all_narrow [0, 1, 2] df0 hdf hnarrow0).2
        rw [hts] at hall
        exact hall
      have hcond : wideOpt df2 = false := hn
      have hpreE2 : ∀ e2 ∈ rest, e2 < e → ∀ s2 ∈ [0, 1, 2], ∀ t2,
          read e2 s2 = some t2 → wideTable t2 = false :=
        fun e2 h2 => hpreE e2 (List.mem_cons_of_mem e0 h2)
      have hrec := ih (List.pairwise_cons.mp hsorted).2 he2 df2 hn hpreE2
      simpa [tryEncs, hts, hcond] using hrec

theorem detect_first_accept (read : Nat → Nat → Option Table) :
    ∀ e ∈ [0, 1, 2, 3], ∀ s ∈ [0, 1, 2], ∀ t, read e s = some t →
      goodTable t = true →
      (∀ e2 ∈ [0, 1, 2, 3], ∀ s2 ∈ [0, 1, 2],
        (e2 < e ∨ (e2 = e ∧ s2 < s)) → ∀ t2, read e2 s2 = some t2 →
          wideTable t2 = false) →
      detect read = some t := by
  intro e he s hs t hr hg hpre
  have henc : tryEncs read [0, 1, 2, 3] none = some t := by
    refine tryEncs_first_accept [0, 1, 2, 3] (by decide) e he none
      narrowOpt_none s hs hr hg ?_ ?_
    · intro s2 hs2 hlt t2 ht2
      exact hpre e he s2 hs2 (Or.inr ⟨rfl, hlt⟩) t2 ht2
    · intro e2 he2 hlt s2 hs2 t2 ht2
      exact hpre e2 he2 s2 hs2 (Or.inl hlt) t2 ht2
  rw [detect, henc]
  simp [wideOpt, wideTable_of_goodTable hg]

/-- Counterexample to C8: on the header-only tab-separated blob every
read attempt yields either a single column or zero data rows, so by the
claim the upload must fail with UnparsableInput — but the outer loop's
acceptance test (src/app.py:483) only requires more than one column, so
the tab attempt carried out of the first encoding's separator loop is
accepted with 0 rows, and the failure surfaces later (empty table after
row filtering), not as UnparsableInput. -/
theorem C8_zero_row_counterexample :
    readAscii hdrBlob 0 0 = some (["Name\tSubject\tMarks\tHighest_Mark".data], 0) ∧
    readAscii hdrBlob 0 1 = some (["Name\tSubject\tMarks\tHighest_Mark".data], 0) ∧
    readAscii hdrBlob 0 2 =
      some (["Name".data, "Subject".data, "Marks".data, "Highest_Mark".data], 0) ∧
    goodTable (["Name".data, "Subject".data, "Marks".data, "Highest_Mark".data], 0)
      = false ∧
    parsePhase hdrBlob =
      ParseOutcome.accepted
        ["Name".data, "Subject".data, "Marks".data, "Highest_Mark".data] 0 := by
  refine ⟨by decide, by decide, by decide, by decide, ?_⟩
  decide

/-- C8 as amended: (empty blob) a 0-byte blob fails as UnparsableInput
and creates no state in the store; (soundness) whenever the detection
fails, no (encoding, separator) combination yielded more than one column
and at least one data row — but not conversely, see the counterexample;
(first acceptance) a combination yielding more than one column and at
least one data row is accepted with exactly its table, provided every
combination tried before it (encoding outer, separator inner) failed or
yielded at most one column, and the remaining combinations are then
abandoned (the result does not depend on them). -/
theorem C8_detection (read : Nat → Nat → Option Table) (st : Store)
    (toRecords : List (List Char) → Nat → List Record) :
    (bulk_upload_csv "" st toRecords = (st, false) ∧
      parsePhase "" = ParseOutcome.unparsable) ∧
    (detect read = none →
      ∀ e ∈ [0, 1, 2, 3], ∀ s ∈ [0, 1, 2], ∀ t, read e s = some t →
        goodTable t = false) ∧
    (∀ e ∈ [0, 1, 2, 3], ∀ s ∈ [0, 1, 2], ∀ t, read e s = some t →
      goodTable t = true →
      (∀ e2 ∈ [0, 1, 2, 3], ∀ s2 ∈ [0, 1, 2],
        (e2 < e ∨ (e2 = e ∧ s2 < s)) → ∀ t2, read e2 s2 = some t2 →
          wideTable t2 = false) →
      detect read = some t) := by
  refine ⟨⟨rfl, rfl⟩, ?_, ?_⟩
  · exact detect_none_sound read
  · exact detect_first_accept read

/-- Witness for C8 as amended: the empty blob fails without touching the
store, and on the blob "a,b\n1,2" the very first combination (first
encoding, comma) yields 2 columns and 1 data row and is accepted. -/
theorem C8_detection_witness :
    bulk_upload_csv "" emptyStore (fun _ _ => []) = (emptyStore, false) ∧
    detect (readAscii "a,b\n1,2") = some (["a".data, "b".data], 1) := by
  constructor
  · exact (C8_detection (readAscii "a,b\n1,2") emptyStore (fun _ _ => [])).1.1
  · refine (C8_detection (readAscii "a,b\n1,2") emptyStore (fun _ _ => [])).2.2
      0 (by decide) 0 (by decide) (["a".data, "b".data], 1) (by decide) (by decide) ?_
    intro e2 he2 s2 hs2 hlt t2 ht2
    exfalso
    rcases hlt with hlt | ⟨heq, hlt⟩
    · exact Nat.not_lt_zero e2 hlt
    · exact Nat.not_lt_zero s2 hlt

/-- Counterexample to C9: for a store whose only record has an empty
Month, the exported Month column is entirely empty, so re-import replaces
it with the current month name ("October" here) — the re-imported row no
longer matches the stored row under the dedup key, the insert SUCCEEDS,
and a new row is created: the round trip is not the identity and no
DuplicateDetected is reported. -/
theorem C9_roundtrip_counterexample :
    reimport "October" "05/10/2026" (exportRecs emptyMonthStore)
      = [{ emptyMonthRec with month := "October" }] ∧
    insert_data_to_db emptyMonthStore
        (reimport "October" "05/10/2026" (exportRecs emptyMonthStore))
      = (pushRecord emptyMonthStore { emptyMonthRec with month := "October" },
         InsertResult.ok) ∧
    (insert_data_to_db emptyMonthStore
        (reimport "October" "05/10/2026" (exportRecs emptyMonthStore))).1.rows.length
      = emptyMonthStore.rows.length + 1 := by
  refine ⟨by decide, by decide, by decide⟩

theorem reimport_id (st : Store) (nm nd : String)
    (hm : ∃ s ∈ st.rows, s.payload.month ≠ "")
    (hd : ∃ s ∈ st.rows, s.payload.date ≠ "")
    (hc : ∃ s ∈ st.rows, s.payload.course ≠ "")
    (he : ∃ s ∈ st.rows, s.payload.exam_type ≠ "") :
    reimport nm nd (exportRecs st) = exportRecs st := by
  have hmem : ∀ s ∈ st.rows, s.payload ∈ exportRecs st := by
    intro s hs
    simp only [exportRecs, storeRecs, List.mem_reverse, List.mem_map]
    exact ⟨s, hs, rfl⟩
  have hallF : ∀ (p : Record → String),
      (∃ s ∈ st.rows, p s.payload ≠ "") →
      (exportRecs st).all (fun r => decide (p r = "")) = false := by
    intro p hp
    rcases hp with ⟨s, hs, hne⟩
    rw [List.all_eq_false]
    exact ⟨s.payload, hmem s hs, by simpa using hne⟩
  have hMonth := hallF (fun r => r.month) hm
  have hDate := hallF (fun r => r.date) hd
  have hCourse := hallF (fun r => r.course) hc
  have hExam := hallF (fun r => r.exam_type) he
  unfold reimport
  rw [hMonth, hDate, hCourse, hExam]
  simp only [if_neg Bool.false_ne_true]
  have : ∀ r : Record,
      { r with month := r.month, date := r.date, course := r.course,
               exam_type := r.exam_type } = r := by
    intro r
    rfl
  simp only [this]
  exact List.map_id (exportRecs st)

/-- C9 as amended: provided at least one stored record has a nonempty
Month, at least one a nonempty Date, at least one a nonempty Course and
at least one a nonempty Exam_Type (so no whole exported text column is
empty and the whole-column defaulting of src/app.py:543-571 stays
inactive; stored numeric columns round-trip exactly), re-importing the
unmodified export reproduces every record identically under the dedup
key, so the re-import is rejected with DuplicateDetected at its first
row and no new row is created: the round trip is the identity with
respect to the dedup key. -/
theorem C9_roundtrip_dedup (st : Store) (nm nd : String)
    (hm : ∃ s ∈ st.rows, s.payload.month ≠ "")
    (hd : ∃ s ∈ st.rows, s.payload.date ≠ "")
    (hc : ∃ s ∈ st.rows, s.payload.course ≠ "")
    (he : ∃ s ∈ st.rows, s.payload.exam_type ≠ "") :
    reimport nm nd (exportRecs st) = exportRecs st ∧
    insert_data_to_db st (reimport nm nd (exportRecs st))
      = (st, InsertResult.duplicate) := by
  have hid := reimport_id st nm nd hm hd hc he
  refine ⟨hid, ?_⟩
  rw [hid]
  rcases hexp : exportRecs st with _ | ⟨r0, rest⟩
  · exfalso
    rcases hm with ⟨s, hs, _⟩
    have hlen : (exportRecs st).length = st.rows.length := by
      simp [exportRecs, storeRecs]
    rw [hexp] at hlen
    have hnil : st.rows = [] := List.length_eq_zero.mp hlen.symm
    rw [hnil] at hs
    cases hs
  · have hr0 : r0 ∈ storeRecs st := by
      have : r0 ∈ exportRecs st := by
        rw [hexp]
        exact List.mem_cons_self r0 rest
      simpa [exportRecs, List.mem_reverse] using this
    rcases List.mem_map.mp hr0 with ⟨s, hs, hsp⟩
    have hdup : hasDup st r0 = true := hasDup_true_of_mem hs hsp
    simp [insert_data_to_db, hdup]

/-- Witness for C9 as amended: a store holding one fully populated record
satisfies the column conditions; the re-import equals the export and is
rejected as a duplicate with the store unchanged. -/
theorem C9_roundtrip_dedup_witness :
    reimport "October" "05/10/2026" (exportRecs (pushRecord emptyStore recA))
      = exportRecs (pushRecord emptyStore recA) ∧
    insert_data_to_db (pushRecord emptyStore recA)
        (reimport "October" "05/10/2026" (exportRecs (pushRecord emptyStore recA)))
      = (pushRecord emptyStore recA, InsertResult.duplicate) :=
  C9_roundtrip_dedup (pushRecord emptyStore recA) "October" "05/10/2026"
    ⟨{ id := 1, payload := recA, created_at := 0 }, by decide, by decide⟩
    ⟨{ id := 1, payload := recA, created_at := 0 }, by decide, by decide⟩
    ⟨{ id := 1, payload := recA, created_at := 0 }, by decide, by decide⟩
    ⟨{ id := 1, payload := recA, created_at := 0 }, by decide, by decide⟩

/-- C10: a manual-entry submission with marks 0 or highest mark 0 is
rejected with the missing-required-fields outcome (no insert attempted),
exactly as an absent value would be — even though the record schema and
the store admit marks 0 and percentage 0 (second conjunct: such a record
inserts fine). -/
theorem C10_zero_marks_rejected (name course month date subject topic : String)
    (rank : Int) (percentage marks average_marks highest_mark : Rat)
    (exam_type : String) (hz : marks = 0 ∨ highest_mark = 0) :
    show_data_entry_form name course month date subject topic rank percentage
        marks average_marks highest_mark exam_type = FormOutcome.missingFields ∧
    (insert_data_to_db emptyStore
        [{ recA with marks := 0, percentage := 0 }]).2 = InsertResult.ok := by
  refine ⟨?_, by decide⟩
  rcases hz with hz | hz <;>
    simp [show_data_entry_form, hz]

/-- Witness for C10: a fully filled form with marks 0 is rejected. -/
theorem C10_zero_marks_rejected_witness :
    show_data_entry_form "A" "JEE" "August" "03/08/2025" "Math" "" 1 50 0 20 40
        "DCT" = FormOutcome.missingFields ∧
    (insert_data_to_db emptyStore
        [{ recA with marks := 0, percentage := 0 }]).2 = InsertResult.ok :=
  C10_zero_marks_rejected "A" "JEE" "August" "03/08/2025" "Math" "" 1 50 0 20 40
    "DCT" (Or.inl rfl)

end StudentPerf
